import Mathlib

/-!
Verification development for the EXIF date editor (src/src/main.ts).

The program is a browser tool that edits date/time EXIF metadata of a JPEG
in place.  The core under study here is:
  - the JPEG segment scanner locating the EXIF APP1 payload,
  - the TIFF directory reader (`parseExifDates` / `readIFD`),
  - the field patcher inside `downloadModified`.

Modelling conventions (shallow embedding of the TypeScript source):
  - An `ArrayBuffer` is a `List Nat` of byte values (each < 256 in any real
    buffer).  `DataView` reads that can throw a JS `RangeError` are modelled
    by `Except` reads.  Following the taxonomy of the specification, the
    two `Invalid TIFF ...` throws of the source and out-of-range reads in
    the parse phase are all `ExifError.headerError`; `Not a JPEG` is
    `formatError`; `No EXIF APP1 segment found` is `segmentError`.
    Exceptions thrown while patching (out-of-range writes) are kept apart
    as `rangeError`.
  - JS strings are modelled by their byte sequences (`List Nat`).  This is
    exact for the ASCII date formats the program manipulates: the reader
    decodes one byte per character with `String.fromCharCode`, and
    `TextEncoder` is the identity on ASCII.
  - IEEE doubles produced by `numerator / denominator` are modelled by
    `Rat`; every division a claim evaluates is exact, where double and
    rational arithmetic agree.
  - The host timezone conversions (`new Date(...)` local constructor plus
    `getUTC*` getters, and the symmetric direction) are abstracted as
    function parameters `convDate` / `convTime`; the claims under study
    concern which inputs are fed to them, not the host rules themselves.
-/

/-- Error classes of the extraction, named as in the specification taxonomy
(§7).  `rangeError` is used only for exceptions raised while patching. -/
inductive ExifError where
  | formatError
  | segmentError
  | headerError
  | rangeError
deriving DecidableEq, Repr

/-- The `type` discriminator of an `EXIFField` in the source. -/
inductive FieldType where
  | date
  | time
  | datetime
deriving DecidableEq, Repr

/-- Decoded payload of a directory entry (`value` in the source is an
untyped union `number | string | number[]`). -/
inductive Value where
  | vStr (s : List Nat)
  | vNum (n : Nat)
  | vRat (q : Rat)
  | vRats (qs : List Rat)
deriving DecidableEq, Repr

/-- The `IDF` record of the source (a raw directory entry). -/
structure IDF where
  tag : Nat
  type : Nat
  count : Nat
  valueOffset : Nat
  value : Value
deriving DecidableEq, Repr

/-- The `EXIFField` record of the source (the unit exposed to the UI). -/
structure EXIFField where
  label : String
  name : String
  ifd : String
  tag : Nat
  count : Nat
  valueOffset : Nat
  value : Value
  type : FieldType
deriving DecidableEq, Repr

/-- EXIF tag numbers used by the source (`TAGS`). -/
def TAGS_DateTime : Nat := 0x0132
def TAGS_ExifIFDPointer : Nat := 0x8769
def TAGS_GPSInfoIFDPointer : Nat := 0x8825
def TAGS_DateTimeOriginal : Nat := 0x9003
def TAGS_DateTimeDigitized : Nat := 0x9004
def TAGS_GPSDateStamp : Nat := 0x001d
def TAGS_GPSTimeStamp : Nat := 0x0007
def TAGS_END_OF_IMAGE : Nat := 0xffd9
def TAGS_APP1_MARKER : Nat := 0xffe1
def TAGS_EXIF_HEADER : Nat := 0x45786966
def TAGS_LITTLE_ENDIAN : Nat := 0x4949
def TAGS_BIG_ENDIAN : Nat := 0x4d4d
def TAGS_JPEG_START : Nat := 0xffd8

/-! ## Byte-level reads and writes -/

/-- Unchecked big-endian 16-bit read (used only under in-range guards,
mirroring guarded `DataView.getUint16(_, false)` calls of the scanner). -/
def u16be (buf : List Nat) (i : Nat) : Nat :=
  buf.getD i 0 * 256 + buf.getD (i + 1) 0

/-- Unchecked big-endian 32-bit read (guarded uses only). -/
def u32be (buf : List Nat) (i : Nat) : Nat :=
  ((buf.getD i 0 * 256 + buf.getD (i + 1) 0) * 256 + buf.getD (i + 2) 0) * 256
    + buf.getD (i + 3) 0

/-- `DataView.getUint8`: a JS `RangeError` past the end is `headerError`
(the parse phase is where every unguarded read of the source lives). -/
def readU8 (buf : List Nat) (i : Nat) : Except ExifError Nat :=
  if i < buf.length then .ok (buf.getD i 0) else .error .headerError

/-- `DataView.getUint16(i, littleEndian)`. -/
def readU16 (buf : List Nat) (le : Bool) (i : Nat) : Except ExifError Nat :=
  if i + 2 ≤ buf.length then
    .ok (if le then buf.getD i 0 + buf.getD (i + 1) 0 * 256
         else buf.getD i 0 * 256 + buf.getD (i + 1) 0)
  else .error .headerError

/-- `DataView.getUint32(i, littleEndian)`. -/
def readU32 (buf : List Nat) (le : Bool) (i : Nat) : Except ExifError Nat :=
  if i + 4 ≤ buf.length then
    .ok (if le then
          buf.getD i 0 + buf.getD (i + 1) 0 * 256 + buf.getD (i + 2) 0 * 65536
            + buf.getD (i + 3) 0 * 16777216
         else u32be buf i)
  else .error .headerError

/-- The four bytes of `setUint32(_, n)` (big-endian, the default the patcher
uses), after the JS `ToUint32` wrap. -/
def be32 (n : Nat) : List Nat :=
  let m := n % 4294967296
  [m / 16777216, m / 65536 % 256, m / 256 % 256, m % 256]

/-- Overwrite `seg` into `buf` starting at `off` (the net effect of the
byte-by-byte `setUint8` / word-by-word `setUint32` loops of the patcher). -/
def writeBytes (buf : List Nat) (off : Nat) (seg : List Nat) : List Nat :=
  buf.take off ++ seg ++ buf.drop (off + seg.length)

/-! ## JS string helpers (strings as byte lists) -/

/-- `String.prototype.split` with a one-byte separator. -/
def splitBytes (c : Nat) : List Nat → List (List Nat)
  | [] => [[]]
  | b :: bs =>
    if b = c then [] :: splitBytes c bs
    else
      match splitBytes c bs with
      | h :: t => (b :: h) :: t
      | [] => [[b]]

def isDigit (b : Nat) : Bool := 48 ≤ b && b ≤ 57

/-- Numeric value of a digit run. -/
def digitsVal (s : List Nat) : Nat :=
  s.foldl (fun acc b => acc * 10 + (b - 48)) 0

/-- `parseInt(s)` as the source uses it (decimal digit strings produced by
date inputs and the date regex; `NaN` is `none`).  Longest leading digit
run; no leading digit gives `NaN`.  Whitespace/sign/radix handling of full
JS `parseInt` never arises for the inputs of this program. -/
def jsParseInt (s : List Nat) : Option Nat :=
  match s with
  | [] => none
  | b :: _ =>
    if isDigit b then some (digitsVal (s.takeWhile isDigit)) else none

/-- `Number(s)` for the time-component strings of `fromInputTime`: the
empty string is `0`, a digit string is its value, anything else is `NaN`
(`none`).  Floats/exponents never arise from `<input type=time>` values. -/
def jsNumberNat (s : List Nat) : Option Nat :=
  if s = [] then some 0
  else if s.all isDigit then some (digitsVal s) else none

/-- Decimal digits of `n`, as bytes (JS number-to-string for naturals). -/
def natBytes (n : Nat) : List Nat :=
  (Nat.repr n).toList.map Char.toNat

/-- `String(n).padStart(2, "0")`. -/
def pad2 (n : Nat) : List Nat :=
  let d := natBytes n
  if d.length < 2 then 48 :: d else d

/-- The bytes of `"undefined"` (what destructuring a missing part gives
once interpolated into a template literal). -/
def undefBytes : List Nat := "undefined".toList.map Char.toNat

/-- The bytes of `"NaN"`. -/
def nanBytes : List Nat := "NaN".toList.map Char.toNat

/-- The bytes of a colon. -/
def colonB : Nat := 58

/-! ## JpegSegmentScanner (`parseExifDates` lines 575-621) -/

/-- The marker walk of `parseExifDates`.  One iteration reads a marker at
`offset` and its segment length at `offset + 2`; the source loop advances
`offset` by `2 + segLen` per iteration, so `buf.length` iterations of fuel
always suffice (fuel exhaustion coincides with cursor exhaustion: both end
the scan without a find). -/
def scanLoop (buf : List Nat) : Nat → Nat → Option Nat
  | 0, _ => none
  | fuel + 1, offset =>
    if offset + 4 > buf.length then none
    else
      let marker := u16be buf offset
      if marker = TAGS_END_OF_IMAGE then none
      else if marker &&& 0xff00 ≠ 0xff00 then none
      else
        let segLen := u16be buf (offset + 2)
        if marker = TAGS_APP1_MARKER ∧ offset + 10 ≤ buf.length ∧
            u32be buf (offset + 4) = TAGS_EXIF_HEADER ∧
            u16be buf (offset + 8) = 0 then
          some (offset + 10)
        else
          scanLoop buf fuel (offset + 2 + segLen)

/-- The scanner: absolute offset of the TIFF header, or a typed failure.
A buffer shorter than two bytes makes `getUint16(0)` itself throw a JS
`RangeError` before the start-of-image comparison. -/
def scanExif (buf : List Nat) : Except ExifError Nat := do
  let soi ← readU16 buf false 0
  if soi ≠ TAGS_JPEG_START then throw .formatError
  match scanLoop buf buf.length 2 with
  | some t => pure t
  | none => throw .segmentError

/-! ## TiffDirectoryReader (`parseExifDates` lines 623-765) -/

/-- Byte-order mark and TIFF magic checks (source lines 625-639).  Note the
magic is compared against a big-endian read of the two bytes — the source
passes `false` for the endianness there regardless of the detected order. -/
def checkTiffHeader (buf : List Nat) (tiffStart : Nat) : Except ExifError Bool :=
  readU16 buf false tiffStart >>= fun bo =>
  (if bo = TAGS_LITTLE_ENDIAN then .ok true
   else if bo ≠ TAGS_BIG_ENDIAN then .error .headerError
   else .ok false) >>= fun le =>
  readU16 buf false (tiffStart + 2) >>= fun magic =>
  if magic ≠ 42 then .error .headerError else .ok le

/-- The ASCII value loop of `readIFD` (lines 674-683): bytes until a NUL or
`count` bytes, whichever first. -/
def readAsciiBytes (buf : List Nat) (off : Nat) : Nat → Except ExifError (List Nat)
  | 0 => .ok []
  | count + 1 => do
    let b ← readU8 buf off
    if b = 0 then pure []
    else do
      let rest ← readAsciiBytes buf (off + 1) count
      pure (b :: rest)

/-- The RATIONAL value loop of `readIFD` (lines 697-716): `count` quotient
values, each `numerator / denominator` (0 when the denominator is 0 — and
`mkRat n 0 = 0`, so the guard of the source is `mkRat` itself).  Doubles
are modelled by `Rat` (exact at every division a claim uses). -/
def readRationalValues (buf : List Nat) (le : Bool) (off : Nat) :
    Nat → Except ExifError (List Rat)
  | 0 => .ok []
  | count + 1 => do
    let num ← readU32 buf le off
    let den ← readU32 buf le (off + 4)
    let q : Rat := mkRat num den
    let rest ← readRationalValues buf le (off + 8) count
    pure (q :: rest)

/-- The `Map<number, IDF>` of `readIFD`: association list where a later
`set` shadows an earlier one (only lookups are observed downstream). -/
def EntryMap := List (Nat × IDF)

def setEntry (m : EntryMap) (k : Nat) (v : IDF) : EntryMap := (k, v) :: m

def lookupEntry (m : EntryMap) (k : Nat) : Option IDF :=
  (List.find? (fun p => p.1 = k) m).map (·.2)

/-- One 12-byte directory entry (lines 657-758). -/
def readEntry (buf : List Nat) (tiffStart : Nat) (le : Bool) (p : Nat) :
    Except ExifError IDF :=
  readU16 buf le p >>= fun tag =>
  readU16 buf le (p + 2) >>= fun ty =>
  readU32 buf le (p + 4) >>= fun count =>
  if ty = 2 then
    (if count ≤ 4 then .ok (p + 8)
     else readU32 buf le (p + 8) >>= fun off => .ok (tiffStart + off)) >>= fun absOff =>
    readAsciiBytes buf absOff count >>= fun s =>
    .ok ⟨tag, ty, count, absOff, .vStr s⟩
  else if ty = 5 then
    readU32 buf le (p + 8) >>= fun off =>
    readRationalValues buf le (tiffStart + off) count >>= fun qs =>
    .ok ⟨tag, ty, count, tiffStart + off,
         if count = 1 then Value.vRat (qs.getD 0 0) else Value.vRats qs⟩
  else if ty = 4 ∨ ty = 3 then
    if tag = TAGS_ExifIFDPointer ∨ tag = TAGS_GPSInfoIFDPointer then
      readU32 buf le (p + 8) >>= fun off =>
      .ok ⟨tag, ty, count, p + 8, .vNum off⟩
    else
      .ok ⟨tag, ty, count, p + 8, .vNum 0⟩
  else
    .ok ⟨tag, ty, count, p + 8, .vNum 0⟩

/-- The entry loop of `readIFD`. -/
def readEntries (buf : List Nat) (tiffStart : Nat) (le : Bool) :
    Nat → Nat → EntryMap → Except ExifError EntryMap
  | _, 0, acc => .ok acc
  | p, n + 1, acc => do
    let e ← readEntry buf tiffStart le p
    readEntries buf tiffStart le (p + 12) n (setEntry acc e.tag e)

/-- `readIFD` (lines 649-765): the entry map plus the (read, never
followed) next-IFD offset. -/
def readIFD (buf : List Nat) (tiffStart : Nat) (le : Bool) (at_ : Nat) :
    Except ExifError (EntryMap × Nat) := do
  let num ← readU16 buf le at_
  let entries ← readEntries buf tiffStart le (at_ + 2) num []
  let next ← readU32 buf le (at_ + 2 + 12 * num)
  pure (entries, next)

/-- `tiffStartOffset + (entry.value as number)` (lines 792 and 797).  The
typed path adds the stored pointer offset.  For entries whose decoded
value is not a plain number the JS `+` degenerates: string values
concatenate and the later `ToIndex` of `getUint16` turns a non-numeric
string into index 0; a rational adds numerically and `ToIndex` truncates;
a rational array joins with commas first.  All are modelled here so the
function is total; only the `vNum` path is reachable for well-formed
files. -/
def jsCoerceOffset (tiffStart : Nat) (v : Value) : Nat :=
  match v with
  | .vNum n => tiffStart + n
  | .vStr s =>
    let str := natBytes tiffStart ++ s
    if str.all isDigit then digitsVal str else 0
  | .vRat q => (((tiffStart : Rat) + q).floor).toNat
  | .vRats qs =>
    match qs with
    | [q] =>
      if q.den = 1 then
        let str := natBytes tiffStart ++ natBytes q.num.toNat
        if str.all isDigit then digitsVal str else 0
      else 0
    | _ => 0

/-- Intermediate state of a successful directory walk. -/
structure ParseState where
  tiffStart : Nat
  le : Bool
  ifd0 : EntryMap
  exifE : Option EntryMap
  gpsE : Option EntryMap

/-- The conditional read of a sub-IFD pointed to from the 0th IFD.  The
sub-IFD is read exactly when the pointer tag is present: the
`if (exifIFDOffset)` truthiness guards of the source are always true
then, because `tiffStartOffset ≥ 12` makes the number paths nonzero and
the degenerate string paths nonempty. -/
def readOptSubIFD (buf : List Nat) (tiffStart : Nat) (le : Bool)
    (entry : Option IDF) : Except ExifError (Option EntryMap) :=
  match entry with
  | some e =>
    readIFD buf tiffStart le (jsCoerceOffset tiffStart e.value) >>= fun sub =>
    .ok (some sub.1)
  | none => .ok none

/-- The directory-walk stages of `parseExifDates` (everything before the
result-list construction). -/
def parseExifStages (buf : List Nat) : Except ExifError ParseState :=
  scanExif buf >>= fun tiffStart =>
  checkTiffHeader buf tiffStart >>= fun le =>
  readU32 buf false (tiffStart + 4) >>= fun fio =>
  readIFD buf tiffStart le (fio + tiffStart) >>= fun ifd0 =>
  readOptSubIFD buf tiffStart le (lookupEntry ifd0.1 TAGS_ExifIFDPointer) >>= fun exifE =>
  readOptSubIFD buf tiffStart le (lookupEntry ifd0.1 TAGS_GPSInfoIFDPointer) >>= fun gpsE =>
  .ok ⟨tiffStart, le, ifd0.1, exifE, gpsE⟩

/-- The result-list construction of `parseExifDates` (lines 767-861):
fields are pushed in a fixed order, one per recognized tag found. -/
def buildResults (st : ParseState) : List EXIFField :=
  (match lookupEntry st.ifd0 TAGS_DateTime with
   | some e => [⟨"Image DateTime (0th IFD)", "DateTime", "0th", TAGS_DateTime,
                 e.count, e.valueOffset, e.value, .datetime⟩]
   | none => []) ++
  (match st.exifE with
   | some em =>
     (match lookupEntry em TAGS_DateTimeOriginal with
      | some e => [⟨"DateTimeOriginal (Exif IFD)", "DateTimeOriginal", "Exif",
                    TAGS_DateTimeOriginal, e.count, e.valueOffset, e.value, .datetime⟩]
      | none => []) ++
     (match lookupEntry em TAGS_DateTimeDigitized with
      | some e => [⟨"DateTimeDigitized (Exif IFD)", "DateTimeDigitized", "Exif",
                    TAGS_DateTimeDigitized, e.count, e.valueOffset, e.value, .datetime⟩]
      | none => [])
   | none => []) ++
  (match st.gpsE with
   | some gm =>
     (match lookupEntry gm TAGS_GPSDateStamp with
      | some e => [⟨"GPSDateStamp (GPS IFD)", "GPSDateStamp", "GPS",
                    TAGS_GPSDateStamp, e.count, e.valueOffset, e.value, .date⟩]
      | none => []) ++
     (match lookupEntry gm TAGS_GPSTimeStamp with
      | some e => [⟨"GPSTimeStamp (GPS IFD)", "GPSTimeStamp", "GPS",
                    TAGS_GPSTimeStamp, e.count, e.valueOffset, e.value, .time⟩]
      | none => [])
   | none => []) 

/-- `parseExifDates`: the whole extraction.  It either returns the complete
field list or fails as a whole (the `Except` composition of the stages). -/
def parseExifDates (buf : List Nat) : Except ExifError (List EXIFField) :=
  (parseExifStages buf).map buildResults

/-- `originalBuffer.slice(0)` (line 135): the byte-for-byte working copy. -/
def cloneBuffer (buf : List Nat) : List Nat := buf.take buf.length

/-! ## TimezoneNormalizer pieces and UI boundary conversions -/

/-- `fromInputDateTime` (lines 388-401): input `YYYY-MM-DDTHH:MM:SS` to the
EXIF wire format; missing parts destructure to `undefined` and land in the
template literal as the text `undefined`. -/
def fromInputDateTime (val : List Nat) : List Nat :=
  if val = [] then []
  else
    let parts := splitBytes 84 val
    let d := parts.getD 0 []
    if d = [] then []
    else
      let dp := splitBytes 45 d
      let t :=
        match parts.getD 1 [] with
        | [] => "00:00:00".toList.map Char.toNat
        | s => s
      let tp := splitBytes colonB t
      dp.getD 0 undefBytes ++ [colonB] ++ dp.getD 1 undefBytes ++ [colonB] ++
        dp.getD 2 undefBytes ++ [32] ++
        tp.getD 0 undefBytes ++ [colonB] ++ tp.getD 1 undefBytes ++ [colonB] ++
        tp.getD 2 undefBytes

/-- `fromInputDate` (lines 403-411). -/
def fromInputDate (val : List Nat) : List Nat :=
  if val = [] then []
  else
    let p := splitBytes 45 val
    p.getD 0 undefBytes ++ [colonB] ++ p.getD 1 undefBytes ++ [colonB] ++
      p.getD 2 undefBytes

/-- `fromInputTime` (lines 413-427): `HH:MM[:SS]` to a 3-element integer
sequence, or `[]` when empty or malformed. -/
def fromInputTime (val : List Nat) : List Nat :=
  if val = [] then []
  else
    let parts := (splitBytes colonB val).map jsNumberNat
    let parts := if parts.length = 2 then parts ++ [some 0] else parts
    if parts.length = 3 ∧ parts.all Option.isSome then
      parts.map (fun o => o.getD 0)
    else []

/-- Whether ten bytes starting at position `i` match `dddd:dd:dd`. -/
def dateMatchAt (s : List Nat) (i : Nat) : Bool :=
  isDigit (s.getD i 0) && isDigit (s.getD (i + 1) 0) &&
  isDigit (s.getD (i + 2) 0) && isDigit (s.getD (i + 3) 0) &&
  (s.getD (i + 4) 0 = colonB : Bool) &&
  isDigit (s.getD (i + 5) 0) && isDigit (s.getD (i + 6) 0) &&
  (s.getD (i + 7) 0 = colonB : Bool) &&
  isDigit (s.getD (i + 8) 0) && isDigit (s.getD (i + 9) 0) && i + 10 ≤ s.length

/-- The regex `/(\d{4}):(\d{2}):(\d{2})/` applied with `String.match`:
first position (left to right) where the fixed-width pattern matches, with
the three captured digit groups as numbers. -/
def matchExifDate (s : List Nat) : Option (Nat × Nat × Nat) :=
  (List.range s.length).findSome? fun i =>
    if dateMatchAt s i then
      some (digitsVal ((s.drop i).take 4),
            digitsVal ((s.drop (i + 5)).take 2),
            digitsVal ((s.drop (i + 8)).take 2))
    else none

/-- Value of a field when it is a string, as the `typeof f.value ===
"string"` guards test. -/
def getStr (v : Value) : Option (List Nat) :=
  match v with
  | .vStr s => some s
  | _ => none

/-- `findCorrespondingDate` (lines 193-220): the date string paired with a
time field for display, looked up in priority order. -/
def findCorrespondingDate (fields : List EXIFField) (timeField : EXIFField) :
    Option (List Nat) :=
  let gps :=
    if timeField.ifd = "GPS" ∧ timeField.name = "GPSTimeStamp" then
      (fields.find? fun f => f.name = "GPSDateStamp" ∧ f.ifd = "GPS").bind
        (fun f => getStr f.value)
    else none
  let sameIfd :=
    (fields.find? fun f => f.type = FieldType.datetime ∧ f.ifd = timeField.ifd).bind
      (fun f => getStr f.value)
  let anyDt :=
    (fields.find? fun f => f.type = FieldType.datetime).bind
      (fun f => getStr f.value)
  (gps.orElse fun _ => sameIfd).orElse fun _ => anyDt

/-! Specification-side selectors (following the words of the spec for the
priority order of §4.3), to compare against the source functions. -/

/-- Spec words: the GPS date field in the same field set (with a string
value). -/
def gpsDateString (fields : List EXIFField) : Option (List Nat) :=
  (fields.find? fun f => f.name = "GPSDateStamp" ∧ f.ifd = "GPS").bind
    (fun f => getStr f.value)

/-- Spec words: a datetime field sharing the time field IFD. -/
def sameIfdDatetimeString (fields : List EXIFField) (timeField : EXIFField) :
    Option (List Nat) :=
  (fields.find? fun f => f.type = FieldType.datetime ∧ f.ifd = timeField.ifd).bind
    (fun f => getStr f.value)

/-- Spec words: any datetime field present. -/
def anyDatetimeString (fields : List EXIFField) : Option (List Nat) :=
  (fields.find? fun f => f.type = FieldType.datetime).bind
    (fun f => getStr f.value)

/-! ## FieldPatcher (`downloadModified`, lines 429-569) -/

/-- The GPS-date save conversion (lines 449-467): split the EXIF-form date
on colons, `parseInt` each part, build a local `Date` and read its UTC
calendar parts.  The host-rule dependent step is the abstract `convDate`.
With any unparsable part the JS `Date` is invalid, every getter returns
`NaN`, and the interpolated result is the text `NaN:NaN:NaN`. -/
def gpsDateConvert (convDate : Nat × Nat × Nat → Nat × Nat × Nat)
    (s : List Nat) : List Nat :=
  let p := splitBytes colonB s
  match jsParseInt (p.getD 0 undefBytes), jsParseInt (p.getD 1 undefBytes),
        jsParseInt (p.getD 2 undefBytes) with
  | some y, some m, some d =>
    let (y2, m2, d2) := convDate (y, m, d)
    natBytes y2 ++ [colonB] ++ pad2 m2 ++ [colonB] ++ pad2 d2
  | _, _, _ => nanBytes ++ [colonB] ++ nanBytes ++ [colonB] ++ nanBytes

/-- The GPS-time save conversion (lines 473-503): consult only the
`GPSDateStamp` field of the parsed field list; when present, a string and
matching the date regex, pair it with the entered triple and convert
through the host rules (`convTime`).  Otherwise the entered value is used
unchanged.  When the entered triple is empty but a date matched, the JS
destructuring produces an invalid `Date` whose getters are `NaN`, stored
by `setUint32` as 0: modelled by the triple `[0, 0, 0]` (same stored
bytes, same nonzero length). -/
def gpsTimeConvert (convTime : Nat × Nat × Nat × Nat × Nat × Nat → Nat × Nat × Nat)
    (fields : List EXIFField) (t : List Nat) : List Nat :=
  match (gpsDateString fields).bind matchExifDate with
  | some (y, m, d) =>
    match t with
    | [h, mi, s] =>
      let (a, b, c) := convTime (y, m, d, h, mi, s)
      [a, b, c]
    | _ => [0, 0, 0]
  | none => t

/-- The new value computed for one rendered input (lines 443-507), before
the empty-skip check.  `Sum.inl` is a string (ASCII write path), `Sum.inr`
an integer sequence (rational write path). -/
def computeNewVal (convDate : Nat × Nat × Nat → Nat × Nat × Nat)
    (convTime : Nat × Nat × Nat × Nat × Nat × Nat → Nat × Nat × Nat)
    (allFields : List EXIFField) (f : EXIFField) (inp : List Nat) :
    Sum (List Nat) (List Nat) :=
  match f.type with
  | .date =>
    let s := fromInputDate inp
    if f.ifd = "GPS" ∧ f.name = "GPSDateStamp" then
      .inl (gpsDateConvert convDate s)
    else .inl s
  | .time =>
    let t := fromInputTime inp
    if f.ifd = "GPS" ∧ f.name = "GPSTimeStamp" then
      .inr (gpsTimeConvert convTime allFields t)
    else .inr t
  | .datetime => .inl (fromInputDateTime inp)

/-- ASCII patch (lines 527-547): stage a `count`-byte scratch array (encode,
truncate to `count - 1`, NUL-terminate, rest zero) and write all `count`
bytes at `valueOffset`.  Storing into the `Uint8Array` wraps each byte mod
256.  With `count = 0` the JS `Math.min(len, -1)` is -1, `subarray(0, -1)`
drops the final encoded byte, and `TypedArray.set` throws unless the
source fits the empty scratch array; the loop then writes nothing. -/
def asciiPatch (buf : List Nat) (off count : Nat) (enc : List Nat) :
    Except ExifError (List Nat) :=
  if count = 0 then
    if enc.length ≤ 1 then .ok buf else .error .rangeError
  else
    let len := min enc.length (count - 1)
    let staged := (enc.take len).map (· % 256) ++ List.replicate (count - len) 0
    if off + count ≤ buf.length then .ok (writeBytes buf off staged)
    else .error .rangeError

/-- Rational patch (lines 548-555): `count` consecutive 8-byte pairs at
`valueOffset`, first word the supplied component (missing components read
as `undefined` and store as 0), second word fixed to 1; both words written
big-endian (the `setUint32` default). -/
def timePatch (buf : List Nat) (off count : Nat) (vals : List Nat) :
    Except ExifError (List Nat) :=
  let seg := (List.range count).flatMap fun i => be32 (vals.getD i 0) ++ be32 1
  if off + 8 * count ≤ buf.length then .ok (writeBytes buf off seg)
  else .error .rangeError

/-- One iteration of the patch loop of `downloadModified`: compute the new
value, skip it entirely when empty, otherwise write it over the original
byte range of the field. -/
def applyOne (convDate : Nat × Nat × Nat → Nat × Nat × Nat)
    (convTime : Nat × Nat × Nat × Nat × Nat × Nat → Nat × Nat × Nat)
    (allFields : List EXIFField) (f : EXIFField) (inp : List Nat)
    (buf : List Nat) : Except ExifError (List Nat) :=
  match computeNewVal convDate convTime allFields f inp with
  | .inl s => if s = [] then .ok buf else asciiPatch buf f.valueOffset f.count s
  | .inr t => if t = [] then .ok buf else timePatch buf f.valueOffset f.count t

/-- The byte range a patch iteration writes, `none` when it is skipped:
`count` bytes at `valueOffset` for a string value, `8 * count` bytes for a
rational sequence. -/
def patchTouch (convDate : Nat × Nat × Nat → Nat × Nat × Nat)
    (convTime : Nat × Nat × Nat × Nat × Nat × Nat → Nat × Nat × Nat)
    (allFields : List EXIFField) (f : EXIFField) (inp : List Nat) :
    Option (Nat × Nat) :=
  match computeNewVal convDate convTime allFields f inp with
  | .inl s => if s = [] then none else some (f.valueOffset, f.count)
  | .inr t => if t = [] then none else some (f.valueOffset, 8 * f.count)

/-- The save operation of `downloadModified` on the working buffer: the
patch loop over the rendered fields and their input strings (`inputs[i]`
edits `parsedFields[i]`).  The downloaded blob is the resulting buffer. -/
def downloadModified (convDate : Nat × Nat × Nat → Nat × Nat × Nat)
    (convTime : Nat × Nat × Nat × Nat × Nat × Nat → Nat × Nat × Nat)
    (fields : List EXIFField) (inputs : List (List Nat)) (buf : List Nat) :
    Except ExifError (List Nat) :=
  (fields.zip inputs).foldlM
    (fun b p => applyOne convDate convTime fields p.1 p.2 b) buf

/-! ## Concrete buffers used to instantiate the theorems -/

/-- Bytes of an ASCII string literal. -/
def strBytes (s : String) : List Nat := s.toList.map Char.toNat

/-- A complete big-endian EXIF JPEG buffer: SOI, one APP1/Exif segment,
TIFF header `MM 00 2A`, a 0th IFD holding `DateTime` and a GPS pointer,
and a GPS IFD holding `GPSDateStamp` and a `GPSTimeStamp` decoding to
`[12, 30, 0]`. -/
def wbuf : List Nat :=
  [0xFF, 0xD8, 0xFF, 0xE1, 0x00, 0x90] ++ strBytes "Exif" ++ [0, 0] ++
  [0x4D, 0x4D, 0x00, 0x2A] ++ [0, 0, 0, 8] ++
  -- 0th IFD at 20: 2 entries
  [0, 2] ++
  [0x01, 0x32, 0x00, 0x02, 0, 0, 0, 20, 0, 0, 0, 50] ++
  [0x88, 0x25, 0x00, 0x04, 0, 0, 0, 1, 0, 0, 0, 70] ++
  [0, 0, 0, 0] ++
  List.replicate 12 0 ++
  -- DateTime string at 62 (TIFF-relative 50)
  strBytes "2024:03:15 14:30:45" ++ [0] ++
  -- GPS IFD at 82 (TIFF-relative 70): 2 entries
  [0, 2] ++
  [0x00, 0x1D, 0x00, 0x02, 0, 0, 0, 11, 0, 0, 0, 100] ++
  [0x00, 0x07, 0x00, 0x05, 0, 0, 0, 3, 0, 0, 0, 112] ++
  [0, 0, 0, 0] ++
  -- GPSDateStamp string at 112 (TIFF-relative 100)
  strBytes "2024:03:15" ++ [0] ++ [0] ++
  -- GPSTimeStamp rationals at 124 (TIFF-relative 112): (12,1)(30,1)(0,1)
  [0, 0, 0, 12, 0, 0, 0, 1, 0, 0, 0, 30, 0, 0, 0, 1, 0, 0, 0, 0, 0, 0, 0, 1]

/-- The field list `parseExifDates wbuf` produces. -/
def wbufFields : List EXIFField :=
  [⟨"Image DateTime (0th IFD)", "DateTime", "0th", TAGS_DateTime, 20, 62,
    .vStr (strBytes "2024:03:15 14:30:45"), .datetime⟩,
   ⟨"GPSDateStamp (GPS IFD)", "GPSDateStamp", "GPS", TAGS_GPSDateStamp, 11, 112,
    .vStr (strBytes "2024:03:15"), .date⟩,
   ⟨"GPSTimeStamp (GPS IFD)", "GPSTimeStamp", "GPS", TAGS_GPSTimeStamp, 3, 124,
    .vRats [12, 30, 0], .time⟩]

/-- A little-endian buffer with the standard TIFF magic byte sequence
`2A 00`: the bytes every real Intel-byte-order EXIF file carries. -/
def lbuf : List Nat :=
  [0xFF, 0xD8, 0xFF, 0xE1, 0x00, 0x0C] ++ strBytes "Exif" ++ [0, 0] ++
  [0x49, 0x49, 0x2A, 0x00]

/-- A buffer whose scan succeeds but whose first directory offset points
far past the end of the buffer. -/
def hbuf : List Nat :=
  [0xFF, 0xD8, 0xFF, 0xE1, 0x00, 0x10] ++ strBytes "Exif" ++ [0, 0] ++
  [0x4D, 0x4D, 0x00, 0x2A] ++ [0x00, 0x00, 0xFF, 0xFF]

set_option maxRecDepth 4000

/-! ## Basic lemmas about the `Except` plumbing -/

@[simp] theorem exc_ok_bind {α β : Type} (a : α) (f : α → Except ExifError β) :
    (Except.ok a >>= f) = f a := rfl

@[simp] theorem exc_err_bind {α β : Type} (e : ExifError) (f : α → Except ExifError β) :
    ((Except.error e : Except ExifError α) >>= f) = Except.error e := rfl

@[simp] theorem exc_map_ok {α β : Type} (g : α → β) (a : α) :
    (Except.ok a : Except ExifError α).map g = Except.ok (g a) := rfl

@[simp] theorem exc_map_err {α β : Type} (g : α → β) (e : ExifError) :
    (Except.error e : Except ExifError α).map g = Except.error e := rfl

@[simp] theorem exc_throw_eq {α : Type} (e : ExifError) :
    (throw e : Except ExifError α) = Except.error e := rfl

@[simp] theorem exc_pure_eq {α : Type} (a : α) :
    (pure a : Except ExifError α) = Except.ok a := rfl

theorem exc_map_eq_error {α β : Type} (g : α → β) (x : Except ExifError α)
    (e : ExifError) : x.map g = .error e ↔ x = .error e := by
  cases x <;> simp [Except.map]

/-! ## Behavior of the scanner stage -/

theorem readU16_of_le (buf : List Nat) (i : Nat) (h : i + 2 ≤ buf.length) :
    readU16 buf false i = .ok (u16be buf i) := by
  unfold readU16 u16be
  rw [if_pos h]
  simp

theorem scanExif_format (buf : List Nat) (h2 : 2 ≤ buf.length)
    (hne : u16be buf 0 ≠ TAGS_JPEG_START) : scanExif buf = .error .formatError := by
  unfold scanExif
  rw [readU16_of_le buf 0 (by omega)]
  simp [hne]

theorem scanExif_segment (buf : List Nat) (h2 : 2 ≤ buf.length)
    (heq : u16be buf 0 = TAGS_JPEG_START) (hnone : scanLoop buf buf.length 2 = none) :
    scanExif buf = .error .segmentError := by
  unfold scanExif
  rw [readU16_of_le buf 0 (by omega)]
  simp [heq, hnone]

theorem parse_of_scan_error (buf : List Nat) (e : ExifError)
    (h : scanExif buf = .error e) : parseExifDates buf = .error e := by
  unfold parseExifDates parseExifStages
  rw [h]
  simp

/-- C7: a buffer whose first two bytes are not the JPEG start-of-image
marker fails with `FormatError`; a buffer that starts with the marker but
whose marker walk ends (at end-of-image, a non-`0xFF` byte pair, or cursor
exhaustion — the cases in which `scanLoop` returns `none`) without finding
an APP1 segment with the `Exif\x00\x00` header fails with `SegmentError`. -/
theorem c7_scanner_errors (buf : List Nat) (h2 : 2 ≤ buf.length) :
    (u16be buf 0 ≠ TAGS_JPEG_START → parseExifDates buf = .error .formatError) ∧
    (u16be buf 0 = TAGS_JPEG_START → scanLoop buf buf.length 2 = none →
      parseExifDates buf = .error .segmentError) := by
  constructor
  · intro hne
    exact parse_of_scan_error buf _ (scanExif_format buf h2 hne)
  · intro heq hnone
    exact parse_of_scan_error buf _ (scanExif_segment buf h2 heq hnone)

/-- Witness for C7 at two concrete buffers: a two-zero-byte buffer is a
`FormatError`, and a JPEG that is just SOI followed by EOI has no EXIF
APP1 segment and is a `SegmentError`. -/
theorem c7_scanner_errors_witness :
    parseExifDates [0, 0] = .error .formatError ∧
    parseExifDates [0xFF, 0xD8, 0xFF, 0xD9] = .error .segmentError :=
  ⟨(c7_scanner_errors [0, 0] (by decide)).1 (by decide),
   (c7_scanner_errors [0xFF, 0xD8, 0xFF, 0xD9] (by decide)).2 (by decide) (by decide)⟩

/-- C8: parsing the unmodified working copy — the byte-for-byte clone
`originalBuffer.slice(0)` taken at load time — produces exactly the field
list of the original buffer.  In this embedding parsing is a pure function
of the byte list and the clone is the byte list itself, so the two runs
agree definitionally; the clone equality is the content of the claim. -/
theorem c8_clone_parse (buf : List Nat) :
    cloneBuffer buf = buf ∧ parseExifDates (cloneBuffer buf) = parseExifDates buf := by
  have h : cloneBuffer buf = buf := List.take_length buf
  exact ⟨h, by rw [h]⟩

/-! ## C2: the TIFF magic is checked against a big-endian read -/

/-- C2 (code bug): `lbuf` is a JPEG whose EXIF APP1 segment carries the
standard little-endian TIFF header `49 49 2A 00` — byte-order mark `II`
and the magic 42 in little-endian byte order, exactly as every Intel
byte-order EXIF file stores it.  The claim (and the TIFF standard) say the
magic is read with the detected endianness, so this buffer must pass the
header checks; the source instead reads the two magic bytes with a fixed
big-endian `getUint16(0, false)` (line 637), sees 0x2A00 and throws
`Invalid TIFF header`.  Every standard little-endian EXIF file is thereby
rejected with a `HeaderError`. -/
theorem c2_magic_read_big_endian_bug :
    parseExifDates lbuf = .error .headerError ∧
    u16be lbuf 12 = TAGS_LITTLE_ENDIAN ∧
    lbuf.getD 14 0 + lbuf.getD 15 0 * 256 = 42 := by
  refine ⟨rfl, rfl, rfl⟩

/-! ## C9: empty GPS-date edits are not skipped -/

/-- A placeholder host conversion (never consulted on the failing path). -/
def trivConvDate : Nat × Nat × Nat → Nat × Nat × Nat := fun t => t

/-- A placeholder host conversion for times. -/
def trivConvTime : Nat × Nat × Nat × Nat × Nat × Nat → Nat × Nat × Nat :=
  fun _ => (0, 0, 0)

/-- A GPSDateStamp field as the parser produces it (11 reserved bytes at
offset 0 of an 11-byte buffer for the concrete run below). -/
def gdField : EXIFField :=
  ⟨"GPSDateStamp (GPS IFD)", "GPSDateStamp", "GPS", TAGS_GPSDateStamp, 11, 0,
   .vStr (strBytes "2024:03:15"), .date⟩

/-- C9 (code bug): saving with the GPS date input left empty is claimed to
be a skipped no-op, but the GPS local-to-UTC conversion (lines 449-467)
runs before the `newVal.length === 0` skip check (line 509): the empty
string is split, `parseInt` yields `NaN`, the invalid `Date` getters
interpolate to the string `NaN:NaN:NaN`, which is nonempty and is written
over the 11-byte field slot (truncated to `NaN:NaN:NA` plus terminator).
The bytes of the field change and the skip never happens. -/
theorem c9_empty_gps_date_written_bug :
    downloadModified trivConvDate trivConvTime [gdField] [[]]
      (List.replicate 11 55) =
      .ok [78, 97, 78, 58, 78, 97, 78, 58, 78, 97, 0] ∧
    ([78, 97, 78, 58, 78, 97, 78, 58, 78, 97, 0] : List Nat) ≠
      List.replicate 11 55 := by
  exact ⟨rfl, by decide⟩

/-! ## C6: every failure after the segment scan is a HeaderError -/

/-- All errors a computation can produce are `headerError`. -/
def HeaderOnly {α : Type} (x : Except ExifError α) : Prop :=
  ∀ e, x = .error e → e = .headerError

theorem headerOnly_ok {α : Type} (a : α) : HeaderOnly (.ok a) := by
  intro e h
  exact absurd h (by simp)

theorem headerOnly_pure {α : Type} (a : α) :
    HeaderOnly (pure a : Except ExifError α) := headerOnly_ok a

theorem headerOnly_bind {α β : Type} {x : Except ExifError α}
    {f : α → Except ExifError β} (hx : HeaderOnly x)
    (hf : ∀ a, HeaderOnly (f a)) : HeaderOnly (x >>= f) := by
  intro e h
  cases x with
  | ok a => exact hf a e (by simpa using h)
  | error e2 =>
    simp at h
    exact hx e (by rw [h])

theorem headerOnly_readU8 (buf : List Nat) (i : Nat) : HeaderOnly (readU8 buf i) := by
  unfold readU8
  split
  · exact headerOnly_ok _
  · intro e h
    simpa using h.symm

theorem headerOnly_readU16 (buf : List Nat) (le : Bool) (i : Nat) :
    HeaderOnly (readU16 buf le i) := by
  unfold readU16
  split
  · exact headerOnly_ok _
  · intro e h
    simpa using h.symm

theorem headerOnly_readU32 (buf : List Nat) (le : Bool) (i : Nat) :
    HeaderOnly (readU32 buf le i) := by
  unfold readU32
  split
  · exact headerOnly_ok _
  · intro e h
    simpa using h.symm

theorem headerOnly_throwHeader {α : Type} :
    HeaderOnly (Except.error .headerError : Except ExifError α) := by
  intro e h
  simpa using h.symm

theorem headerOnly_checkTiffHeader (buf : List Nat) (t : Nat) :
    HeaderOnly (checkTiffHeader buf t) := by
  unfold checkTiffHeader
  apply headerOnly_bind (headerOnly_readU16 buf false t)
  intro bo
  apply headerOnly_bind
  · split
    · exact headerOnly_ok _
    · split
      · exact headerOnly_throwHeader
      · exact headerOnly_ok _
  · intro le
    apply headerOnly_bind (headerOnly_readU16 buf false (t + 2))
    intro magic
    split
    · exact headerOnly_throwHeader
    · exact headerOnly_ok _

theorem headerOnly_readAsciiBytes (buf : List Nat) (off count : Nat) :
    HeaderOnly (readAsciiBytes buf off count) := by
  induction count generalizing off with
  | zero => exact headerOnly_ok _
  | succ n ih =>
    unfold readAsciiBytes
    apply headerOnly_bind (headerOnly_readU8 buf off)
    intro b
    split
    · exact headerOnly_pure _
    · exact headerOnly_bind (ih (off + 1)) fun rest => headerOnly_pure _

theorem headerOnly_readRationalValues (buf : List Nat) (le : Bool) (off count : Nat) :
    HeaderOnly (readRationalValues buf le off count) := by
  induction count generalizing off with
  | zero => exact headerOnly_ok _
  | succ n ih =>
    unfold readRationalValues
    apply headerOnly_bind (headerOnly_readU32 buf le off)
    intro num
    apply headerOnly_bind (headerOnly_readU32 buf le (off + 4))
    intro den
    exact headerOnly_bind (ih (off + 8)) fun rest => headerOnly_pure _

theorem headerOnly_readEntry (buf : List Nat) (tiffStart : Nat) (le : Bool) (p : Nat) :
    HeaderOnly (readEntry buf tiffStart le p) := by
  unfold readEntry
  apply headerOnly_bind (headerOnly_readU16 buf le p)
  intro tag
  apply headerOnly_bind (headerOnly_readU16 buf le (p + 2))
  intro ty
  apply headerOnly_bind (headerOnly_readU32 buf le (p + 4))
  intro count
  split
  · apply headerOnly_bind
    · split
      · exact headerOnly_ok _
      · exact headerOnly_bind (headerOnly_readU32 buf le (p + 8)) fun off =>
          headerOnly_ok _
    · intro absOff
      exact headerOnly_bind (headerOnly_readAsciiBytes buf absOff count) fun s =>
        headerOnly_ok _
  · split
    · apply headerOnly_bind (headerOnly_readU32 buf le (p + 8))
      intro off
      exact headerOnly_bind
        (headerOnly_readRationalValues buf le (tiffStart + off) count) fun qs =>
        headerOnly_ok _
    · split
      · split
        · exact headerOnly_bind (headerOnly_readU32 buf le (p + 8)) fun off =>
            headerOnly_ok _
        · exact headerOnly_ok _
      · exact headerOnly_ok _

theorem headerOnly_readEntries (buf : List Nat) (tiffStart : Nat) (le : Bool)
    (p n : Nat) (acc : EntryMap) :
    HeaderOnly (readEntries buf tiffStart le p n acc) := by
  induction n generalizing p acc with
  | zero => exact headerOnly_ok _
  | succ m ih =>
    unfold readEntries
    exact headerOnly_bind (headerOnly_readEntry buf tiffStart le p) fun e =>
      ih (p + 12) (setEntry acc e.tag e)

theorem headerOnly_readIFD (buf : List Nat) (tiffStart : Nat) (le : Bool)
    (at_ : Nat) : HeaderOnly (readIFD buf tiffStart le at_) := by
  unfold readIFD
  apply headerOnly_bind (headerOnly_readU16 buf le at_)
  intro num
  apply headerOnly_bind (headerOnly_readEntries buf tiffStart le (at_ + 2) num [])
  intro entries
  exact headerOnly_bind (headerOnly_readU32 buf le (at_ + 2 + 12 * num)) fun next =>
    headerOnly_pure _

theorem headerOnly_readOptSubIFD (buf : List Nat) (tiffStart : Nat) (le : Bool)
    (entry : Option IDF) : HeaderOnly (readOptSubIFD buf tiffStart le entry) := by
  unfold readOptSubIFD
  cases entry with
  | some e =>
    exact headerOnly_bind
      (headerOnly_readIFD buf tiffStart le (jsCoerceOffset tiffStart e.value))
      fun sub => headerOnly_ok _
  | none => exact headerOnly_ok _

/-- C6: the extraction is atomic and a directory walk that runs past the
buffer fails the whole parse with a `HeaderError`.  Atomicity is
structural in this embedding (`parseExifDates` returns either the complete
field list or one error, never a partial list); the substance proved here
is that once the segment scan has succeeded, every possible failure of the
remaining pipeline — bad byte order, bad magic, and every out-of-range
directory, entry or value read (the `RangeError`s the `DataView` accesses
of `readIFD` raise, classed as `HeaderError` by the specification
taxonomy) — is a `HeaderError`. -/
theorem c6_directory_failures_are_header_errors (buf : List Nat) (t : Nat)
    (e : ExifError) (hscan : scanExif buf = .ok t)
    (hparse : parseExifDates buf = .error e) : e = .headerError := by
  unfold parseExifDates at hparse
  rw [exc_map_eq_error] at hparse
  unfold parseExifStages at hparse
  rw [hscan] at hparse
  simp only [exc_ok_bind] at hparse
  refine (?_ : HeaderOnly _) e hparse
  apply headerOnly_bind (headerOnly_checkTiffHeader buf t)
  intro le
  apply headerOnly_bind (headerOnly_readU32 buf false (t + 4))
  intro fio
  apply headerOnly_bind (headerOnly_readIFD buf t le (fio + t))
  intro ifd0
  apply headerOnly_bind (headerOnly_readOptSubIFD buf t le _)
  intro exifE
  apply headerOnly_bind (headerOnly_readOptSubIFD buf t le _)
  intro gpsE
  exact headerOnly_ok _

/-- Witness for C6: `hbuf` scans successfully (TIFF header at offset 12)
but declares its first directory at relative offset 65535, far past its
20 bytes; the whole parse fails and the error is the `HeaderError` class. -/
theorem c6_directory_failures_witness :
    scanExif hbuf = .ok 12 ∧ parseExifDates hbuf = .error .headerError ∧
    ExifError.headerError = .headerError :=
  ⟨rfl, rfl, c6_directory_failures_are_header_errors hbuf 12 .headerError rfl rfl⟩

/-! ## C10: fields appear in a fixed canonical order -/

/-- The order in which `parseExifDates` pushes recognized fields. -/
def canonicalNames : List String :=
  ["DateTime", "DateTimeOriginal", "DateTimeDigitized", "GPSDateStamp",
   "GPSTimeStamp"]

/-- A tag is found in an optional sub-IFD. -/
def subPresent (sub : Option EntryMap) (tag : Nat) : Bool :=
  match sub with
  | some em => (lookupEntry em tag).isSome
  | none => false

theorem subPresent_iff (sub : Option EntryMap) (tag : Nat) :
    subPresent sub tag = true ↔
      ∃ em, sub = some em ∧ ∃ e, lookupEntry em tag = some e := by
  cases sub <;> simp [subPresent, Option.isSome_iff_exists]

theorem buildResults_name_split (st : ParseState) :
    (buildResults st).map (·.name) =
      (if (lookupEntry st.ifd0 TAGS_DateTime).isSome then ["DateTime"] else []) ++
      ((if subPresent st.exifE TAGS_DateTimeOriginal then ["DateTimeOriginal"] else []) ++
       (if subPresent st.exifE TAGS_DateTimeDigitized then ["DateTimeDigitized"] else [])) ++
      ((if subPresent st.gpsE TAGS_GPSDateStamp then ["GPSDateStamp"] else []) ++
       (if subPresent st.gpsE TAGS_GPSTimeStamp then ["GPSTimeStamp"] else [])) := by
  obtain ⟨t, le, i0, exifE, gpsE⟩ := st
  cases exifE with
  | none =>
    cases gpsE with
    | none =>
      cases h1 : lookupEntry i0 TAGS_DateTime <;>
        simp [buildResults, subPresent, h1]
    | some gm =>
      cases h1 : lookupEntry i0 TAGS_DateTime <;>
        cases h4 : lookupEntry gm TAGS_GPSDateStamp <;>
        cases h5 : lookupEntry gm TAGS_GPSTimeStamp <;>
        simp [buildResults, subPresent, h1, h4, h5]
  | some em =>
    cases gpsE with
    | none =>
      cases h1 : lookupEntry i0 TAGS_DateTime <;>
        cases h2 : lookupEntry em TAGS_DateTimeOriginal <;>
        cases h3 : lookupEntry em TAGS_DateTimeDigitized <;>
        simp [buildResults, subPresent, h1, h2, h3]
    | some gm =>
      cases h1 : lookupEntry i0 TAGS_DateTime <;>
        cases h2 : lookupEntry em TAGS_DateTimeOriginal <;>
        cases h3 : lookupEntry em TAGS_DateTimeDigitized <;>
        cases h4 : lookupEntry gm TAGS_GPSDateStamp <;>
        cases h5 : lookupEntry gm TAGS_GPSTimeStamp <;>
        simp [buildResults, subPresent, h1, h2, h3, h4, h5]

theorem condSingletons_sublist (b1 b2 b3 b4 b5 : Bool) :
    ((if b1 then ["DateTime"] else []) ++
     ((if b2 then ["DateTimeOriginal"] else []) ++
      (if b3 then ["DateTimeDigitized"] else [])) ++
     ((if b4 then ["GPSDateStamp"] else []) ++
      (if b5 then ["GPSTimeStamp"] else []))).Sublist canonicalNames := by
  revert b1 b2 b3 b4 b5
  decide

theorem condSingletons_mem (b1 b2 b3 b4 b5 : Bool) :
    (("DateTime" ∈
      (if b1 then ["DateTime"] else []) ++
      ((if b2 then ["DateTimeOriginal"] else []) ++
       (if b3 then ["DateTimeDigitized"] else [])) ++
      ((if b4 then ["GPSDateStamp"] else []) ++
       (if b5 then ["GPSTimeStamp"] else []))) ↔ b1 = true) ∧
    (("DateTimeOriginal" ∈
      (if b1 then ["DateTime"] else []) ++
      ((if b2 then ["DateTimeOriginal"] else []) ++
       (if b3 then ["DateTimeDigitized"] else [])) ++
      ((if b4 then ["GPSDateStamp"] else []) ++
       (if b5 then ["GPSTimeStamp"] else []))) ↔ b2 = true) ∧
    (("DateTimeDigitized" ∈
      (if b1 then ["DateTime"] else []) ++
      ((if b2 then ["DateTimeOriginal"] else []) ++
       (if b3 then ["DateTimeDigitized"] else [])) ++
      ((if b4 then ["GPSDateStamp"] else []) ++
       (if b5 then ["GPSTimeStamp"] else []))) ↔ b3 = true) ∧
    (("GPSDateStamp" ∈
      (if b1 then ["DateTime"] else []) ++
      ((if b2 then ["DateTimeOriginal"] else []) ++
       (if b3 then ["DateTimeDigitized"] else [])) ++
      ((if b4 then ["GPSDateStamp"] else []) ++
       (if b5 then ["GPSTimeStamp"] else []))) ↔ b4 = true) ∧
    (("GPSTimeStamp" ∈
      (if b1 then ["DateTime"] else []) ++
      ((if b2 then ["DateTimeOriginal"] else []) ++
       (if b3 then ["DateTimeDigitized"] else [])) ++
      ((if b4 then ["GPSDateStamp"] else []) ++
       (if b5 then ["GPSTimeStamp"] else []))) ↔ b5 = true) := by
  revert b1 b2 b3 b4 b5
  decide

/-- C10: for every successfully parsed buffer the field list is the fixed
push order DateTime, DateTimeOriginal, DateTimeDigitized, GPSDateStamp,
GPSTimeStamp (its name sequence is a sublist of that canonical order), and
each field is present exactly when its tag was found in the corresponding
directory of the walk — presence in the entry maps, which is independent
of the order in which the entries occurred inside the IFDs. -/
theorem c10_fixed_field_order (buf : List Nat) (fs : List EXIFField)
    (h : parseExifDates buf = .ok fs) :
    ∃ st, parseExifStages buf = .ok st ∧ fs = buildResults st ∧
      (fs.map (·.name)).Sublist canonicalNames ∧
      (("DateTime" ∈ fs.map (·.name)) ↔
        ∃ e, lookupEntry st.ifd0 TAGS_DateTime = some e) ∧
      (("DateTimeOriginal" ∈ fs.map (·.name)) ↔
        ∃ em, st.exifE = some em ∧
          ∃ e, lookupEntry em TAGS_DateTimeOriginal = some e) ∧
      (("DateTimeDigitized" ∈ fs.map (·.name)) ↔
        ∃ em, st.exifE = some em ∧
          ∃ e, lookupEntry em TAGS_DateTimeDigitized = some e) ∧
      (("GPSDateStamp" ∈ fs.map (·.name)) ↔
        ∃ gm, st.gpsE = some gm ∧
          ∃ e, lookupEntry gm TAGS_GPSDateStamp = some e) ∧
      (("GPSTimeStamp" ∈ fs.map (·.name)) ↔
        ∃ gm, st.gpsE = some gm ∧
          ∃ e, lookupEntry gm TAGS_GPSTimeStamp = some e) := by
  unfold parseExifDates at h
  rcases hst : parseExifStages buf with e | st
  · rw [hst] at h
    exact absurd h (by simp)
  · rw [hst] at h
    simp only [exc_map_ok, Except.ok.injEq] at h
    subst h
    refine ⟨st, rfl, rfl, ?_, ?_, ?_, ?_, ?_, ?_⟩
    · rw [buildResults_name_split]
      exact condSingletons_sublist _ _ _ _ _
    · rw [buildResults_name_split, (condSingletons_mem _ _ _ _ _).1]
      simp [Option.isSome_iff_exists]
    · rw [buildResults_name_split, (condSingletons_mem _ _ _ _ _).2.1]
      exact subPresent_iff st.exifE TAGS_DateTimeOriginal
    · rw [buildResults_name_split, (condSingletons_mem _ _ _ _ _).2.2.1]
      exact subPresent_iff st.exifE TAGS_DateTimeDigitized
    · rw [buildResults_name_split, (condSingletons_mem _ _ _ _ _).2.2.2.1]
      exact subPresent_iff st.gpsE TAGS_GPSDateStamp
    · rw [buildResults_name_split, (condSingletons_mem _ _ _ _ _).2.2.2.2]
      exact subPresent_iff st.gpsE TAGS_GPSTimeStamp

/-- Witness for C10 at the concrete buffer `wbuf`, whose parse succeeds
with the three fields DateTime, GPSDateStamp, GPSTimeStamp in canonical
order. -/
theorem c10_fixed_field_order_witness :
    parseExifDates wbuf = .ok wbufFields ∧
    (wbufFields.map (·.name)).Sublist canonicalNames := by
  refine ⟨rfl, ?_⟩
  obtain ⟨st, h1, h2, h3, h4⟩ := c10_fixed_field_order wbuf wbufFields rfl
  exact h3

/-! ## Frame lemmas for in-place writes -/

theorem writeBytes_length (buf seg : List Nat) (off : Nat)
    (h : off + seg.length ≤ buf.length) :
    (writeBytes buf off seg).length = buf.length := by
  unfold writeBytes
  simp only [List.length_append, List.length_take, List.length_drop]
  omega

theorem writeBytes_getD_left (buf seg : List Nat) (off i d : Nat)
    (hi : i < off) (h : off ≤ buf.length) :
    (writeBytes buf off seg).getD i d = buf.getD i d := by
  unfold writeBytes
  have hlen : (buf.take off).length = off := by
    simp only [List.length_take]
    omega
  rw [List.append_assoc, List.getD_append _ _ _ _ (by omega)]
  simp [List.getD, List.getElem?_take, hi]

theorem writeBytes_getD_inside (buf seg : List Nat) (off i d : Nat)
    (hle : off + seg.length ≤ buf.length) (hi : i < seg.length) :
    (writeBytes buf off seg).getD (off + i) d = seg.getD i d := by
  unfold writeBytes
  have hlen : (buf.take off).length = off := by
    simp only [List.length_take]
    omega
  rw [List.append_assoc, List.getD_append_right _ _ _ _ (by omega)]
  rw [hlen, Nat.add_sub_cancel_left]
  exact List.getD_append _ _ _ _ hi

theorem writeBytes_getD_right (buf seg : List Nat) (off i d : Nat)
    (hle : off + seg.length ≤ buf.length) (hi : off + seg.length ≤ i) :
    (writeBytes buf off seg).getD i d = buf.getD i d := by
  unfold writeBytes
  have hlen : (buf.take off).length = off := by
    simp only [List.length_take]
    omega
  rw [List.append_assoc, List.getD_append_right _ _ _ _ (by omega)]
  rw [List.getD_append_right _ _ _ _ (by omega)]
  have : (buf.drop (off + seg.length)).getD (i - (buf.take off).length - seg.length) d
      = buf.getD (off + seg.length + (i - (buf.take off).length - seg.length)) d := by
    simp [List.getD, List.getElem?_drop]
  rw [this]
  congr 1
  omega

theorem writeBytes_slice (buf seg : List Nat) (off : Nat)
    (hle : off + seg.length ≤ buf.length) :
    ((writeBytes buf off seg).drop off).take seg.length = seg := by
  unfold writeBytes
  have hlen : (buf.take off).length = off := by
    simp only [List.length_take]
    omega
  rw [List.append_assoc, List.drop_left' hlen, List.take_left]

/-! ## The ASCII read as a pure slice scan -/

theorem readAsciiBytes_eq (buf : List Nat) (count off : Nat)
    (h : off + count ≤ buf.length) :
    readAsciiBytes buf off count =
      .ok (((buf.drop off).take count).takeWhile (· ≠ 0)) := by
  induction count generalizing off with
  | zero => simp [readAsciiBytes]
  | succ n ih =>
    unfold readAsciiBytes
    have hoff : off < buf.length := by omega
    have h8 : readU8 buf off = .ok (buf.getD off 0) := by
      unfold readU8
      rw [if_pos hoff]
    rw [h8, exc_ok_bind]
    have hdrop : (buf.drop off).take (n + 1) =
        buf.getD off 0 :: (buf.drop (off + 1)).take n := by
      rw [List.drop_eq_getElem_cons hoff, List.getD_eq_getElem buf 0 hoff]
      rfl
    rw [hdrop]
    by_cases hb : buf.getD off 0 = 0
    · rw [if_pos hb, hb]
      simp [List.takeWhile_cons]
    · rw [if_neg hb, ih (off + 1) (by omega), exc_ok_bind, List.takeWhile_cons,
        if_pos (by simpa using hb)]
      rfl

theorem takeWhile_ne_append_zero (A Z : List Nat) :
    (A ++ 0 :: Z).takeWhile (· ≠ 0) = A.takeWhile (· ≠ 0) := by
  induction A with
  | nil => simp [List.takeWhile_cons]
  | cons a as ih =>
    rw [List.cons_append, List.takeWhile_cons, List.takeWhile_cons]
    by_cases ha : a = 0
    · simp [ha]
    · simp only [ha, if_true, decide_not]
      simp [ha]
      simpa using ih

/-! ## C3: ASCII patch then reparse -/

/-- C3 (amended): for an ASCII field with `count ≥ 1` and a replacement
encoding `enc` (bytes, as `TextEncoder` produces), a successful patch
writes `min (enc.length) (count - 1)` encoded bytes at `valueOffset`, a
NUL terminator immediately after, zeros in the rest of the reserved
`count` bytes, and nothing outside the slot; re-parsing the field with the
reader decodes the written bytes up to the first NUL, so it returns
exactly the encoded string whenever it fits in `count - 1` bytes and
contains no NUL byte, and the truncated prefix (up to a NUL) otherwise.
The amendment over the original claim is the NUL condition: an encoding
with an interior zero byte reparses only up to that zero. -/
theorem c3_ascii_patch_roundtrip (buf : List Nat) (off count : Nat)
    (enc out : List Nat) (hc : 1 ≤ count) (hbytes : ∀ b ∈ enc, b < 256)
    (hp : asciiPatch buf off count enc = .ok out) :
    out = buf.take off ++ enc.take (min enc.length (count - 1)) ++
      (List.replicate (count - min enc.length (count - 1)) 0 ++
       buf.drop (off + count)) ∧
    out.length = buf.length ∧
    readAsciiBytes out off count =
      .ok ((enc.take (min enc.length (count - 1))).takeWhile (· ≠ 0)) ∧
    (enc.length ≤ count - 1 → (∀ b ∈ enc, b ≠ 0) →
      readAsciiBytes out off count = .ok enc) := by
  unfold asciiPatch at hp
  rw [if_neg (by omega)] at hp
  by_cases hr : off + count ≤ buf.length
  · rw [if_pos hr] at hp
    have hout : writeBytes buf off
        ((enc.take (min enc.length (count - 1))).map (· % 256) ++
         List.replicate (count - min enc.length (count - 1)) 0) = out := by
      exact Except.ok.inj hp
    have hmap : (enc.take (min enc.length (count - 1))).map (· % 256) =
        enc.take (min enc.length (count - 1)) := by
      have : ∀ l : List Nat, (∀ b ∈ l, b < 256) → l.map (· % 256) = l := by
        intro l hl
        induction l with
        | nil => rfl
        | cons a as ih =>
          simp only [List.map_cons, List.cons.injEq]
          exact ⟨Nat.mod_eq_of_lt (hl a (by simp)),
                 ih fun b hb => hl b (by simp [hb])⟩
      exact this _ fun b hb => hbytes b (List.take_subset _ _ hb)
    have hlen_take : (enc.take (min enc.length (count - 1))).length =
        min enc.length (count - 1) := by
      simp [List.length_take]
    have hstaged_len :
        ((enc.take (min enc.length (count - 1))).map (· % 256) ++
         List.replicate (count - min enc.length (count - 1)) 0).length = count := by
      simp only [List.length_append, List.length_map, hlen_take,
        List.length_replicate]
      omega
    have hlenout : out.length = buf.length := by
      rw [← hout]
      exact writeBytes_length _ _ _ (by rw [hstaged_len]; exact hr)
    have h3 : readAsciiBytes out off count =
        .ok ((enc.take (min enc.length (count - 1))).takeWhile (· ≠ 0)) := by
      rw [readAsciiBytes_eq out count off (by rw [hlenout]; exact hr)]
      have hslice : (out.drop off).take count =
          (enc.take (min enc.length (count - 1))).map (· % 256) ++
          List.replicate (count - min enc.length (count - 1)) 0 := by
        rw [← hout]
        have := writeBytes_slice buf
          ((enc.take (min enc.length (count - 1))).map (· % 256) ++
           List.replicate (count - min enc.length (count - 1)) 0) off
          (by rw [hstaged_len]; exact hr)
        rw [hstaged_len] at this
        exact this
      rw [hslice, hmap]
      have hrep : List.replicate (count - min enc.length (count - 1)) 0 =
          0 :: List.replicate (count - min enc.length (count - 1) - 1) 0 := by
        rw [show count - min enc.length (count - 1) =
            (count - min enc.length (count - 1) - 1) + 1 by omega]
        rfl
      rw [hrep, takeWhile_ne_append_zero]
    refine ⟨?_, hlenout, h3, ?_⟩
    · rw [← hout, hmap]
      simp [writeBytes, hlen_take, List.append_assoc]
    · intro hle hnz
      rw [h3]
      have hminr : min enc.length (count - 1) = enc.length := by omega
      rw [hminr, List.take_length]
      congr 1
      exact List.takeWhile_eq_self_iff.mpr (by simpa using hnz)
  · rw [if_neg hr] at hp
    exact absurd hp (by simp)

/-- Witness for C3 at the concrete scenario of the specification: the
20-byte DateTime slot of `wbuf` (offset 62) patched with the 19-byte
encoding of `2024:03:15 14:30:46` re-parses to exactly that string. -/
theorem c3_ascii_patch_roundtrip_witness :
    asciiPatch wbuf 62 20 (strBytes "2024:03:15 14:30:46") =
      .ok (wbuf.take 62 ++ strBytes "2024:03:15 14:30:46" ++
           ([0] ++ wbuf.drop 82)) ∧
    readAsciiBytes
      (wbuf.take 62 ++ strBytes "2024:03:15 14:30:46" ++ ([0] ++ wbuf.drop 82))
      62 20 = .ok (strBytes "2024:03:15 14:30:46") := by
  have hpatch : asciiPatch wbuf 62 20 (strBytes "2024:03:15 14:30:46") =
      .ok (wbuf.take 62 ++ strBytes "2024:03:15 14:30:46" ++
           ([0] ++ wbuf.drop 82)) := rfl
  refine ⟨hpatch, ?_⟩
  exact (c3_ascii_patch_roundtrip wbuf 62 20 (strBytes "2024:03:15 14:30:46")
    (wbuf.take 62 ++ strBytes "2024:03:15 14:30:46" ++ ([0] ++ wbuf.drop 82))
    (by decide) (by decide) hpatch).2.2.2 (by decide) (by decide)

/-- Counterexample to C3 as stated: an encoding with an interior NUL byte
(`[97, 0, 98]`, three bytes, well within a 10-byte slot) patches fine but
re-parses to `[97]`, not to the full replacement string. -/
theorem c3_ascii_patch_counterexample :
    (asciiPatch (List.replicate 10 7) 0 10 [97, 0, 98]).bind
      (fun w => readAsciiBytes w 0 10) = .ok [97] ∧
    ([97] : List Nat) ≠ [97, 0, 98] :=
  ⟨rfl, by decide⟩

/-! ## C4: GPS time patch then reparse -/

theorem be32_of_lt (x : Nat) (hx : x < 256) : be32 x = [0, 0, 0, x] := by
  simp [be32]
  omega

theorem readU32_of_bytes (buf : List Nat) (le : Bool) (i a b c d : Nat)
    (h4 : i + 4 ≤ buf.length) (h0 : buf.getD i 0 = a)
    (h1 : buf.getD (i + 1) 0 = b) (h2 : buf.getD (i + 2) 0 = c)
    (h3 : buf.getD (i + 3) 0 = d) :
    readU32 buf le i =
      .ok (if le then a + b * 256 + c * 65536 + d * 16777216
           else ((a * 256 + b) * 256 + c) * 256 + d) := by
  unfold readU32 u32be
  rw [if_pos h4, h0, h1, h2, h3]

theorem mkRat_mul_pow24 (x : Nat) :
    mkRat (x * 16777216) 16777216 = (x : Rat) := by
  rw [Rat.mkRat_eq_divInt, Rat.divInt_eq_div]
  push_cast
  rw [mul_div_assoc, div_self (by norm_num), mul_one]

/-- C4 (amended): patching a GPS time field of count 3 with an integer
triple `[h, m, s]` of byte-sized components (every clock value is) stores
three consecutive 8-byte pairs whose big-endian words are `(h,1)`, `(m,1)`,
`(s,1)` starting at `valueOffset`, touches nothing else of the slot
arithmetic, and re-parsing that field returns exactly `[h, m, s]` for
either byte order: the patcher always writes big-endian words, yet for a
little-endian file both the numerator and the denominator of each pair are
re-read byte-swapped — both gain the same factor 2^24 when the component
is below 256 — so the quotient still comes back exact.  The amendment over
the original claim is the `< 256` bound on the components: larger
components do not survive the byte-order mismatch in little-endian files
(see the counterexample). -/
theorem c4_time_patch_roundtrip (le : Bool) (buf out : List Nat)
    (off h m s : Nat) (hh : h < 256) (hm : m < 256) (hs : s < 256)
    (hp : timePatch buf off 3 [h, m, s] = .ok out) :
    (out.drop off).take 24 =
      be32 h ++ be32 1 ++ (be32 m ++ be32 1 ++ (be32 s ++ be32 1)) ∧
    out.length = buf.length ∧
    readRationalValues out le off 3 = .ok [(h : Rat), (m : Rat), (s : Rat)] := by
  unfold timePatch at hp
  by_cases hr : off + 8 * 3 ≤ buf.length
  · rw [if_pos hr] at hp
    have hout : writeBytes buf off
        ((List.range 3).flatMap fun i => be32 ([h, m, s].getD i 0) ++ be32 1) =
        out := Except.ok.inj hp
    have hseg : ((List.range 3).flatMap fun i =>
        be32 ([h, m, s].getD i 0) ++ be32 1) =
        [0, 0, 0, h, 0, 0, 0, 1, 0, 0, 0, m, 0, 0, 0, 1, 0, 0, 0, s, 0, 0, 0, 1] := by
      show be32 h ++ be32 1 ++ (be32 m ++ be32 1 ++ (be32 s ++ be32 1 ++ [])) = _
      rw [be32_of_lt h hh, be32_of_lt m hm, be32_of_lt s hs,
          be32_of_lt 1 (by norm_num)]
      rfl
    have hseglen : ((List.range 3).flatMap fun i =>
        be32 ([h, m, s].getD i 0) ++ be32 1).length = 24 := by
      rw [hseg]
      rfl
    have hr24 : off + 24 ≤ buf.length := by omega
    have hlenout : out.length = buf.length := by
      rw [← hout]
      exact writeBytes_length _ _ _ (by rw [hseglen]; omega)
    have hbyte : ∀ i, i < 24 → out.getD (off + i) 0 =
        ([0, 0, 0, h, 0, 0, 0, 1, 0, 0, 0, m, 0, 0, 0, 1,
          0, 0, 0, s, 0, 0, 0, 1] : List Nat).getD i 0 := by
      intro i hi
      rw [← hout, ← hseg]
      exact writeBytes_getD_inside buf _ off i 0 (by rw [hseglen]; omega)
        (by rw [hseglen]; omega)
    refine ⟨?_, hlenout, ?_⟩
    · rw [← hout]
      have := writeBytes_slice buf
        ((List.range 3).flatMap fun i => be32 ([h, m, s].getD i 0) ++ be32 1) off
        (by rw [hseglen]; omega)
      rw [hseglen] at this
      rw [this, hseg, be32_of_lt h hh, be32_of_lt m hm, be32_of_lt s hs,
          be32_of_lt 1 (by norm_num)]
      rfl
    · have heq : ∀ j a, j + 4 ≤ 24 →
          (∀ k, k < 4 → ([0, 0, 0, h, 0, 0, 0, 1, 0, 0, 0, m, 0, 0, 0, 1,
            0, 0, 0, s, 0, 0, 0, 1] : List Nat).getD (j + k) 0 =
            ([0, 0, 0, a] : List Nat).getD k 0) →
          readU32 out le (off + j) =
            .ok (if le then a * 16777216 else a) := by
        intro j a hj hcomp
        have e0 := (hbyte (j + 0) (by omega)).trans (hcomp 0 (by omega))
        have e1 := (hbyte (j + 1) (by omega)).trans (hcomp 1 (by omega))
        have e2 := (hbyte (j + 2) (by omega)).trans (hcomp 2 (by omega))
        have e3 := (hbyte (j + 3) (by omega)).trans (hcomp 3 (by omega))
        rw [show off + (j + 0) = off + j by omega] at e0
        rw [show off + (j + 1) = off + j + 1 by omega] at e1
        rw [show off + (j + 2) = off + j + 2 by omega] at e2
        rw [show off + (j + 3) = off + j + 3 by omega] at e3
        rw [readU32_of_bytes out le (off + j) 0 0 0 a
          (by omega) (by simpa using e0) e1 e2 e3]
        congr 1
        cases le <;> simp
      unfold readRationalValues readRationalValues readRationalValues
        readRationalValues
      rw [show off = off + 0 by omega]
      rw [heq 0 h (by omega) (by intro k hk; interval_cases k <;> rfl)]
      rw [show off + 0 + 4 = off + 4 by omega,
          heq 4 1 (by omega) (by intro k hk; interval_cases k <;> rfl)]
      rw [show off + 0 + 8 = off + 8 by omega,
          heq 8 m (by omega) (by intro k hk; interval_cases k <;> rfl)]
      rw [show off + 8 + 4 = off + 12 by omega,
          heq 12 1 (by omega) (by intro k hk; interval_cases k <;> rfl)]
      rw [show off + 8 + 8 = off + 16 by omega,
          heq 16 s (by omega) (by intro k hk; interval_cases k <;> rfl)]
      rw [show off + 16 + 4 = off + 20 by omega,
          heq 20 1 (by omega) (by intro k hk; interval_cases k <;> rfl)]
      simp only [exc_ok_bind, exc_pure_eq]
      cases le <;>
        simp [mkRat_mul_pow24, Rat.mkRat_one]
  · rw [if_neg hr] at hp
    exact absurd hp (by simp)

/-- Witness for C4, mirroring the concrete scenario of the specification:
the GPSTimeStamp rationals of `wbuf` decode to `[12, 30, 0]`; a 24-byte
buffer patched with `[13, 0, 0]` holds the pairs `(13,1)(0,1)(0,1)` and
re-parses (here read little-endian, the harder direction) to `[13, 0, 0]`. -/
theorem c4_time_patch_roundtrip_witness :
    readRationalValues wbuf false 124 3 = .ok [12, 30, 0] ∧
    timePatch (List.replicate 24 0) 0 3 [13, 0, 0] =
      .ok [0, 0, 0, 13, 0, 0, 0, 1, 0, 0, 0, 0, 0, 0, 0, 1,
           0, 0, 0, 0, 0, 0, 0, 1] ∧
    readRationalValues
      [0, 0, 0, 13, 0, 0, 0, 1, 0, 0, 0, 0, 0, 0, 0, 1,
       0, 0, 0, 0, 0, 0, 0, 1] true 0 3 =
      .ok [((13 : Nat) : Rat), ((0 : Nat) : Rat), ((0 : Nat) : Rat)] := by
  have hpatch : timePatch (List.replicate 24 0) 0 3 [13, 0, 0] =
      .ok [0, 0, 0, 13, 0, 0, 0, 1, 0, 0, 0, 0, 0, 0, 0, 1,
           0, 0, 0, 0, 0, 0, 0, 1] := rfl
  refine ⟨rfl, hpatch, ?_⟩
  have := (c4_time_patch_roundtrip true (List.replicate 24 0)
    [0, 0, 0, 13, 0, 0, 0, 1, 0, 0, 0, 0, 0, 0, 0, 1,
     0, 0, 0, 0, 0, 0, 0, 1] 0 13 0 0
    (by decide) (by decide) (by decide) hpatch).2.2
  simpa using this

/-- Counterexample to C4 as stated: in a little-endian buffer a component
that does not fit one byte is destroyed by the endianness mismatch of the
patcher (big-endian writes, little-endian reparse): patching `[300, 0, 0]`
re-parses to `11265/256`, not 300. -/
theorem c4_time_patch_counterexample :
    (timePatch (List.replicate 24 0) 0 3 [300, 0, 0]).bind
      (fun w => readRationalValues w true 0 3) =
      .ok [mkRat 11265 256, 0, 0] ∧
    mkRat 11265 256 ≠ ((300 : Nat) : Rat) := by
  refine ⟨rfl, ?_⟩
  intro hcontra
  have hd : (mkRat 11265 256).den = ((300 : Nat) : Rat).den := by rw [hcontra]
  revert hd
  decide

/-! ## C5: date pairing for display versus save -/

/-- A GPSTimeStamp field (count 3, rationals at offset 0 of the small
buffers below). -/
def tfEx : EXIFField :=
  ⟨"GPSTimeStamp (GPS IFD)", "GPSTimeStamp", "GPS", TAGS_GPSTimeStamp, 3, 0,
   .vRats [12, 30, 0], .time⟩

/-- A DateTimeOriginal field carrying a full EXIF datetime string. -/
def dtoEx : EXIFField :=
  ⟨"DateTimeOriginal (Exif IFD)", "DateTimeOriginal", "Exif",
   TAGS_DateTimeOriginal, 20, 100, .vStr (strBytes "2024:01:02 03:04:05"),
   .datetime⟩

/-- A field set with a GPS time but no GPS date, and a datetime fallback. -/
def exFields : List EXIFField := [tfEx, dtoEx]

/-- C5 (amended): for a GPS time field, the display path chooses its date
by the priority order (a) the GPS date field, (b) a datetime field of the
same IFD, (c) any datetime field — with the current date used downstream
when all three fail; the save path, however, consults only the GPS date
field (a): when that field is absent, not a string, or does not match the
date pattern, the locally entered triple is handed to the patcher without
any UTC conversion, and only when it matches is the host conversion
applied.  The amendment over the original claim is the save side: it does
not use the display priority order. -/
theorem c5_display_priority_save_gps_only (fields : List EXIFField)
    (tf : EXIFField)
    (conv : Nat × Nat × Nat × Nat × Nat × Nat → Nat × Nat × Nat)
    (t : List Nat) (hifd : tf.ifd = "GPS") (hname : tf.name = "GPSTimeStamp") :
    findCorrespondingDate fields tf =
      ((gpsDateString fields).orElse fun _ =>
        ((sameIfdDatetimeString fields tf).orElse fun _ =>
          anyDatetimeString fields)) ∧
    ((gpsDateString fields).bind matchExifDate = none →
      gpsTimeConvert conv fields t = t) ∧
    (∀ y m d, (gpsDateString fields).bind matchExifDate = some (y, m, d) →
      gpsTimeConvert conv fields t =
        (match t with
         | [h, mi, s] =>
           [(conv (y, m, d, h, mi, s)).1, (conv (y, m, d, h, mi, s)).2.1,
            (conv (y, m, d, h, mi, s)).2.2]
         | _ => [0, 0, 0])) := by
  refine ⟨?_, ?_, ?_⟩
  · unfold findCorrespondingDate gpsDateString sameIfdDatetimeString
      anyDatetimeString
    rw [if_pos ⟨hifd, hname⟩]
    generalize ((fields.find? fun f =>
      f.name = "GPSDateStamp" ∧ f.ifd = "GPS").bind fun f => getStr f.value) = a
    generalize ((fields.find? fun f =>
      f.type = FieldType.datetime ∧ f.ifd = tf.ifd).bind fun f =>
      getStr f.value) = b
    cases a <;> cases b <;> rfl
  · intro hnone
    unfold gpsTimeConvert
    rw [hnone]
  · intro y m d hsome
    unfold gpsTimeConvert
    rw [hsome]

/-- Witness for C5 at the concrete field set `exFields`: the display path
falls back to the DateTimeOriginal value, and the save path applies no
conversion because there is no GPS date field. -/
theorem c5_display_priority_save_gps_only_witness :
    findCorrespondingDate exFields tfEx = some (strBytes "2024:01:02 03:04:05") ∧
    gpsTimeConvert trivConvTime exFields [13, 0, 0] = [13, 0, 0] := by
  obtain ⟨h1, h2, h3⟩ :=
    c5_display_priority_save_gps_only exFields tfEx trivConvTime [13, 0, 0]
      rfl rfl
  exact ⟨by rw [h1]; rfl, h2 rfl⟩

/-- Counterexample to C5 as stated: with `exFields` the display pairing
finds a date (the DateTimeOriginal fallback) for the GPS time field, so
pairing by the same priority order on save would convert the entered
13:00:00 through the host conversion (taken here to return 5:05:05); the
save path instead finds no GPS date field, applies no conversion at all,
and writes the raw local hour 13 as the first stored numerator. -/
theorem c5_save_pairing_counterexample :
    findCorrespondingDate exFields tfEx =
      some (strBytes "2024:01:02 03:04:05") ∧
    (downloadModified trivConvDate (fun _ => (5, 5, 5)) exFields
      [strBytes "13:00", []] (List.replicate 30 0)).map
        (fun w => w.getD 3 0) = .ok 13 ∧
    (13 : Nat) ≠ 5 :=
  ⟨rfl, rfl, by decide⟩

/-! ## C1: the save operation only writes inside edited field ranges -/

/-- Whether position `i` lies outside the byte range written for the field
(`true` as well when the edit is skipped and nothing is written). -/
def outsideTouchB (convDate : Nat × Nat × Nat → Nat × Nat × Nat)
    (convTime : Nat × Nat × Nat × Nat × Nat × Nat → Nat × Nat × Nat)
    (allFields : List EXIFField) (f : EXIFField) (inp : List Nat)
    (i : Nat) : Bool :=
  match patchTouch convDate convTime allFields f inp with
  | some r => decide (i < r.1 ∨ r.1 + r.2 ≤ i)
  | none => true

theorem segLen_flatMap (vals : List Nat) (count : Nat) :
    ((List.range count).flatMap fun i => be32 (vals.getD i 0) ++ be32 1).length
      = 8 * count := by
  induction count with
  | zero => rfl
  | succ n ih =>
    rw [List.range_succ, List.flatMap_append, List.length_append, ih]
    simp [be32]
    omega

theorem asciiPatch_ok_frame (buf : List Nat) (off count : Nat)
    (enc out : List Nat) (hp : asciiPatch buf off count enc = .ok out) :
    out.length = buf.length ∧
    ∀ i d, (i < off ∨ off + count ≤ i) → out.getD i d = buf.getD i d := by
  unfold asciiPatch at hp
  by_cases hc : count = 0
  · rw [if_pos hc] at hp
    by_cases he : enc.length ≤ 1
    · rw [if_pos he] at hp
      obtain rfl := Except.ok.inj hp
      exact ⟨rfl, fun i d _ => rfl⟩
    · rw [if_neg he] at hp
      exact absurd hp (by simp)
  · rw [if_neg hc] at hp
    by_cases hr : off + count ≤ buf.length
    · rw [if_pos hr] at hp
      obtain rfl := Except.ok.inj hp
      have hstaged_len :
          ((enc.take (min enc.length (count - 1))).map (· % 256) ++
           List.replicate (count - min enc.length (count - 1)) 0).length = count := by
        simp only [List.length_append, List.length_map, List.length_take,
          List.length_replicate]
        omega
      refine ⟨writeBytes_length _ _ _ (by rw [hstaged_len]; exact hr), ?_⟩
      intro i d hi
      rcases hi with hi | hi
      · exact writeBytes_getD_left _ _ _ _ _ hi (by omega)
      · exact writeBytes_getD_right _ _ _ _ _ (by rw [hstaged_len]; exact hr)
          (by rw [hstaged_len]; exact hi)
    · rw [if_neg hr] at hp
      exact absurd hp (by simp)

theorem timePatch_ok_frame (buf : List Nat) (off count : Nat)
    (vals out : List Nat) (hp : timePatch buf off count vals = .ok out) :
    out.length = buf.length ∧
    ∀ i d, (i < off ∨ off + 8 * count ≤ i) → out.getD i d = buf.getD i d := by
  unfold timePatch at hp
  by_cases hr : off + 8 * count ≤ buf.length
  · rw [if_pos hr] at hp
    obtain rfl := Except.ok.inj hp
    have hsl := segLen_flatMap vals count
    refine ⟨writeBytes_length _ _ _ (by rw [hsl]; exact hr), ?_⟩
    intro i d hi
    rcases hi with hi | hi
    · exact writeBytes_getD_left _ _ _ _ _ hi (by omega)
    · exact writeBytes_getD_right _ _ _ _ _ (by rw [hsl]; exact hr)
        (by rw [hsl]; exact hi)
  · rw [if_neg hr] at hp
    exact absurd hp (by simp)

theorem applyOne_ok_frame (convDate : Nat × Nat × Nat → Nat × Nat × Nat)
    (convTime : Nat × Nat × Nat × Nat × Nat × Nat → Nat × Nat × Nat)
    (allFields : List EXIFField) (f : EXIFField) (inp : List Nat)
    (buf out : List Nat)
    (hp : applyOne convDate convTime allFields f inp buf = .ok out) :
    out.length = buf.length ∧
    ∀ i d, outsideTouchB convDate convTime allFields f inp i = true →
      out.getD i d = buf.getD i d := by
  unfold applyOne at hp
  unfold outsideTouchB patchTouch
  cases hcv : computeNewVal convDate convTime allFields f inp with
  | inl s =>
    simp only [hcv] at hp ⊢
    by_cases hs : s = []
    · rw [if_pos hs] at hp
      obtain rfl := Except.ok.inj hp
      exact ⟨rfl, fun i d _ => rfl⟩
    · rw [if_neg hs] at hp
      obtain ⟨hl, hf⟩ := asciiPatch_ok_frame _ _ _ _ _ hp
      refine ⟨hl, fun i d hcond => ?_⟩
      simp only [if_neg hs] at hcond
      exact hf i d (by simpa using hcond)
  | inr t =>
    simp only [hcv] at hp ⊢
    by_cases ht : t = []
    · rw [if_pos ht] at hp
      obtain rfl := Except.ok.inj hp
      exact ⟨rfl, fun i d _ => rfl⟩
    · rw [if_neg ht] at hp
      obtain ⟨hl, hf⟩ := timePatch_ok_frame _ _ _ _ _ hp
      refine ⟨hl, fun i d hcond => ?_⟩
      simp only [if_neg ht] at hcond
      exact hf i d (by simpa using hcond)

theorem foldPatch_ok_frame (convDate : Nat × Nat × Nat → Nat × Nat × Nat)
    (convTime : Nat × Nat × Nat × Nat × Nat × Nat → Nat × Nat × Nat)
    (allFields : List EXIFField) :
    ∀ (ps : List (EXIFField × List Nat)) (buf out : List Nat),
    ps.foldlM (fun b p => applyOne convDate convTime allFields p.1 p.2 b) buf
      = .ok out →
    out.length = buf.length ∧
    ∀ i d, (∀ p ∈ ps,
        outsideTouchB convDate convTime allFields p.1 p.2 i = true) →
      out.getD i d = buf.getD i d := by
  intro ps
  induction ps with
  | nil =>
    intro buf out hp
    obtain rfl : buf = out := by simpa [List.foldlM] using hp
    exact ⟨rfl, fun i d _ => rfl⟩
  | cons p ps ih =>
    intro buf out hp
    rw [List.foldlM_cons] at hp
    cases ha : applyOne convDate convTime allFields p.1 p.2 buf with
    | error e =>
      rw [ha] at hp
      exact absurd hp (by simp)
    | ok b2 =>
      rw [ha] at hp
      simp only [exc_ok_bind] at hp
      obtain ⟨hl1, hf1⟩ := applyOne_ok_frame _ _ _ _ _ _ _ ha
      obtain ⟨hl2, hf2⟩ := ih b2 out hp
      refine ⟨hl2.trans hl1, fun i d hcond => ?_⟩
      rw [hf2 i d fun q hq => hcond q (List.mem_cons_of_mem p hq)]
      exact hf1 i d (hcond p (List.mem_cons_self p ps))

/-- C1: a successful save never changes the buffer length, and every byte
outside the byte ranges of the edited fields — `count` bytes at
`valueOffset` when the written value is a string (ASCII fields), and
`8 * count` bytes at `valueOffset` for the GPS time rationals, with
skipped (empty) edits touching nothing — is exactly the byte the buffer
held before the save. -/
theorem c1_save_preserves_outside_bytes
    (convDate : Nat × Nat × Nat → Nat × Nat × Nat)
    (convTime : Nat × Nat × Nat × Nat × Nat × Nat → Nat × Nat × Nat)
    (fields : List EXIFField) (inputs : List (List Nat)) (buf out : List Nat)
    (hp : downloadModified convDate convTime fields inputs buf = .ok out) :
    out.length = buf.length ∧
    ∀ i, (∀ p ∈ fields.zip inputs,
        outsideTouchB convDate convTime fields p.1 p.2 i = true) →
      out.getD i 0 = buf.getD i 0 := by
  unfold downloadModified at hp
  obtain ⟨hl, hf⟩ := foldPatch_ok_frame convDate convTime fields
    (fields.zip inputs) buf out hp
  exact ⟨hl, fun i hc => hf i 0 hc⟩

/-- Witness for C1: patching the 20-byte DateTime slot at offset 100 of a
130-byte buffer of sevens leaves the length and the byte at position 0
(outside the edited range) unchanged. -/
theorem c1_save_preserves_outside_bytes_witness :
    downloadModified trivConvDate trivConvTime [dtoEx]
      [strBytes "2024-01-02T03:04:05"] (List.replicate 130 7) =
      .ok (List.replicate 100 7 ++ strBytes "2024:01:02 03:04:05" ++
           ([0] ++ List.replicate 10 7)) ∧
    (List.replicate 100 7 ++ strBytes "2024:01:02 03:04:05" ++
     ([0] ++ List.replicate 10 7)).length = 130 ∧
    (List.replicate 100 7 ++ strBytes "2024:01:02 03:04:05" ++
     ([0] ++ List.replicate 10 7)).getD 0 0 = 7 := by
  have hsave : downloadModified trivConvDate trivConvTime [dtoEx]
      [strBytes "2024-01-02T03:04:05"] (List.replicate 130 7) =
      .ok (List.replicate 100 7 ++ strBytes "2024:01:02 03:04:05" ++
           ([0] ++ List.replicate 10 7)) := rfl
  have h := c1_save_preserves_outside_bytes trivConvDate trivConvTime [dtoEx]
    [strBytes "2024-01-02T03:04:05"] (List.replicate 130 7) _ hsave
  refine ⟨hsave, by simp; rfl, ?_⟩
  rw [h.2 0 (by decide)]
  rfl
